import Mathlib

/-!
Shallow embedding of the HanFrame photo editor core (TypeScript sources under
src/) together with proofs about the frozen specification claims.

Conventions:
* JavaScript numbers appearing in exact integer/fraction arithmetic are
  modelled as rationals; the pixel pipelines and the aspect-ratio helper use
  transcendental functions (tanh, sqrt, pow) and are modelled over the reals.
* Fallible code is modelled with Except; React state updates are modelled as
  explicit state-passing functions.
-/

namespace HanFrame

/-- Crop rectangle over the rationals, mirroring the CropData interface of
src/types.ts ({x, y, width, height}). -/
structure CropRect where
  x : ℚ
  y : ℚ
  width : ℚ
  height : ℚ
deriving DecidableEq, Repr

/-! ## History manager: src/hooks/useHistory.ts

The hook keeps `history : T[]` and `index : number` in React state.  We model
the pair as a record and each exposed operation as a pure state transformer,
exactly following the setState updater functions in the source. -/

/-- State of the useHistory hook: the snapshot array and the current index. -/
structure HistState (T : Type) where
  history : List T
  index : Nat
deriving DecidableEq, Repr

/-- Initial hook state: `useState<T[]>([initialState])`, `useState(0)`. -/
def initHist {T : Type} (s0 : T) : HistState T := ⟨[s0], 0⟩

/-- `set`: overwrites the snapshot at the current index (`copy[index] = newState`),
leaving the index unchanged. -/
def histSet {T : Type} (st : HistState T) (s : T) : HistState T :=
  ⟨st.history.set st.index s, st.index⟩

/-- `push`: `prev.slice(0, index + 1)` followed by appending the new snapshot,
and `setIndex(prev => prev + 1)`. -/
def histPush {T : Type} (st : HistState T) (s : T) : HistState T :=
  ⟨st.history.take (st.index + 1) ++ [s], st.index + 1⟩

/-- `undo`: `setIndex(prev => Math.max(0, prev - 1))`; truncated subtraction on
Nat is exactly `Math.max(0, prev - 1)` for a nonnegative index. -/
def histUndo {T : Type} (st : HistState T) : HistState T :=
  ⟨st.history, st.index - 1⟩

/-- `redo`: `setIndex(prev => Math.min(history.length - 1, prev + 1))` (the
setHistory call inside redo returns `prev` in both branches, so the history
array is unchanged). -/
def histRedo {T : Type} (st : HistState T) : HistState T :=
  ⟨st.history, min (st.history.length - 1) (st.index + 1)⟩

/-- `reset`: `setHistory([newState]); setIndex(0)`. -/
def histReset {T : Type} (_ : HistState T) (s : T) : HistState T :=
  ⟨[s], 0⟩

/-- `canUndo: index > 0`. -/
def canUndo {T : Type} (st : HistState T) : Bool := decide (0 < st.index)

/-- `canRedo: index < history.length - 1`. -/
def canRedo {T : Type} (st : HistState T) : Bool :=
  decide (st.index < st.history.length - 1)

/-- The exposed state: `history[index]` (None when out of range, which the
hook never reaches from its initial state). -/
def histCurrent {T : Type} (st : HistState T) : Option T :=
  st.history.get? st.index

/-- One operation of the hook interface. -/
inductive HistOp (T : Type) where
  | set (s : T)
  | push (s : T)
  | undo
  | redo
  | reset (s : T)

/-- Apply one hook operation to the state. -/
def applyOp {T : Type} (st : HistState T) : HistOp T → HistState T
  | .set s => histSet st s
  | .push s => histPush st s
  | .undo => histUndo st
  | .redo => histRedo st
  | .reset s => histReset st s

/-- Run a sequence of hook operations from a state. -/
def applyOps {T : Type} (st : HistState T) (ops : List (HistOp T)) : HistState T :=
  ops.foldl applyOp st

/-- Run a sequence of `push` calls from a state. -/
def pushAll {T : Type} (st : HistState T) (l : List T) : HistState T :=
  l.foldl histPush st

/-- Well-formedness of the hook state: non-empty history and in-range index. -/
def histWF {T : Type} (st : HistState T) : Prop :=
  0 < st.history.length ∧ st.index < st.history.length

/-- After a pure push sequence the index always sits on the last snapshot. -/
def histFull {T : Type} (st : HistState T) : Prop :=
  0 < st.history.length ∧ st.index = st.history.length - 1

lemma histFull_init {T : Type} (s0 : T) : histFull (initHist s0) := by
  constructor <;> simp [initHist]

lemma histFull_push {T : Type} {st : HistState T} (h : histFull st) (v : T) :
    histFull (histPush st v) := by
  obtain ⟨h1, h2⟩ := h
  refine ⟨by simp [histPush], ?_⟩
  simp only [histPush, List.length_append, List.length_take, List.length_cons,
    List.length_nil]
  omega

lemma histFull_pushAll {T : Type} (l : List T) :
    ∀ st : HistState T, histFull st → histFull (pushAll st l) := by
  induction l with
  | nil => intro st h; simpa [pushAll] using h
  | cons v rest ih =>
    intro st h
    have : pushAll st (v :: rest) = pushAll (histPush st v) rest := by
      simp [pushAll, List.foldl_cons]
    rw [this]
    exact ih _ (histFull_push h v)

lemma histRedo_histUndo {T : Type} {st : HistState T} (h : histFull st) :
    histRedo (histUndo st) = st := by
  obtain ⟨h1, h2⟩ := h
  cases st with
  | mk hist i =>
    simp only [histUndo, histRedo, HistState.mk.injEq, and_true, true_and]
    simp only at h1 h2
    omega

lemma histWF_applyOp {T : Type} {st : HistState T} (h : histWF st) (op : HistOp T) :
    histWF (applyOp st op) := by
  obtain ⟨h1, h2⟩ := h
  cases op with
  | set s =>
    exact ⟨by simpa [applyOp, histSet] using h1, by simpa [applyOp, histSet] using h2⟩
  | push s =>
    refine ⟨by simp [applyOp, histPush], ?_⟩
    simp only [applyOp, histPush, List.length_append, List.length_take,
      List.length_cons, List.length_nil]
    omega
  | undo => exact ⟨h1, by simp only [applyOp, histUndo]; omega⟩
  | redo => exact ⟨h1, by simp only [applyOp, histRedo]; omega⟩
  | reset s => exact ⟨by simp [applyOp, histReset], by simp [applyOp, histReset]⟩

lemma histWF_applyOps {T : Type} (ops : List (HistOp T)) :
    ∀ st : HistState T, histWF st → histWF (applyOps st ops) := by
  induction ops with
  | nil => intro st h; simpa [applyOps] using h
  | cons op rest ih =>
    intro st h
    have : applyOps st (op :: rest) = applyOps (applyOp st op) rest := by
      simp [applyOps, List.foldl_cons]
    rw [this]
    exact ih _ (histWF_applyOp h op)

/-- C4: useHistory semantics — undo decrements with floor 0, redo increments
with ceiling at the last index, both no-ops at their bound (the bounds being
exposed as canUndo/canRedo); undo followed by redo restores the exact prior
value after any sequence of pushes; and push truncates everything beyond the
current index before appending and advancing. -/
theorem useHistory_semantics (T : Type) (s0 v : T) (st : HistState T) (l : List T) :
    (histUndo st).index = st.index - 1
    ∧ (canUndo st = false → histUndo st = st)
    ∧ (histRedo st).index = min (st.history.length - 1) (st.index + 1)
    ∧ (histWF st → canRedo st = false → histRedo st = st)
    ∧ histPush st v = ⟨st.history.take (st.index + 1) ++ [v], st.index + 1⟩
    ∧ histRedo (histUndo (pushAll (initHist s0) l)) = pushAll (initHist s0) l := by
  refine ⟨rfl, ?_, rfl, ?_, rfl, ?_⟩
  · intro h
    have hi : st.index = 0 := by
      by_contra hne
      simp [canUndo, Nat.pos_of_ne_zero hne] at h
    cases st with
    | mk hist i =>
      simp only at hi
      simp [histUndo, hi]
  · intro hwf h
    obtain ⟨h1, h2⟩ := hwf
    have hi : ¬ st.index < st.history.length - 1 := by
      intro hlt
      simp [canRedo, hlt] at h
    cases st with
    | mk hist i =>
      simp only at h1 h2 hi
      simp only [histRedo, HistState.mk.injEq, true_and]
      omega
  · exact histRedo_histUndo (histFull_pushAll l _ (histFull_init s0))

/-- C4 witness: concrete instantiation — at the lower bound undo is a no-op,
and undo;redo after two pushes restores the state. -/
theorem useHistory_semantics_witness :
    canUndo (HistState.mk [5] 0 : HistState ℕ) = false
    ∧ histUndo (HistState.mk [5] 0 : HistState ℕ) = HistState.mk [5] 0
    ∧ histRedo (histUndo (pushAll (initHist (0 : ℕ)) [1, 2])) =
        pushAll (initHist (0 : ℕ)) [1, 2] := by
  have h := useHistory_semantics ℕ 0 7 (HistState.mk [5] 0) [1, 2]
  exact ⟨by decide, h.2.1 (by decide), h.2.2.2.2.2⟩

/-- C10: every reachable useHistory state is well-formed — the history is
non-empty, the index is in range, and the exposed state history[index] is a
defined snapshot. -/
theorem useHistory_wellFormed (T : Type) (s0 : T) (ops : List (HistOp T)) :
    histWF (applyOps (initHist s0) ops)
    ∧ ∃ v, histCurrent (applyOps (initHist s0) ops) = some v := by
  have hwf : histWF (applyOps (initHist s0) ops) :=
    histWF_applyOps ops _ ⟨by simp [initHist], by simp [initHist]⟩
  refine ⟨hwf, ?_⟩
  obtain ⟨h1, h2⟩ := hwf
  rcases h : (applyOps (initHist s0) ops).history.get? (applyOps (initHist s0) ops).index
    with _ | v
  · rw [List.get?_eq_none] at h
    omega
  · exact ⟨v, h⟩

/-! ## Photo rotation: handleRotateLeft / handleRotateRight (App component)

The handlers map over the collection and, for the selected photo, replace the
rotation by `(current + 90) % 360` (right) or `(current - 90 + 360) % 360`
(left) and set `crop: null`.  Only the fields the handlers touch are
modelled; `rotation` is a natural number (the data model keeps it in
{0, 90, 180, 270}, and for such values the JavaScript remainder agrees with
Nat.mod). -/

/-- The modelled fields of a Photo relevant to rotation: id, rotation, crop. -/
structure Photo where
  id : Nat
  rotation : Nat
  crop : Option CropRect
deriving DecidableEq, Repr

/-- Per-photo update performed by handleRotateRight on the selected photo. -/
def rotateRightPhoto (p : Photo) : Photo :=
  { p with rotation := (p.rotation + 90) % 360, crop := none }

/-- Per-photo update performed by handleRotateLeft on the selected photo
(`(current - 90 + 360) % 360`; for a nonnegative current this equals
`(current + 270) % 360`). -/
def rotateLeftPhoto (p : Photo) : Photo :=
  { p with rotation := (p.rotation + 270) % 360, crop := none }

/-- handleRotateRight maps over the collection, rotating only the selected
photo. -/
def handleRotateRight (selectedId : Nat) (photos : List Photo) : List Photo :=
  photos.map fun p => if p.id = selectedId then rotateRightPhoto p else p

/-- handleRotateLeft maps over the collection, rotating only the selected
photo. -/
def handleRotateLeft (selectedId : Nat) (photos : List Photo) : List Photo :=
  photos.map fun p => if p.id = selectedId then rotateLeftPhoto p else p

/-- C8: rotating four times by 90 degrees (either direction) restores the
original rotation value; the crop is cleared on the first rotation and every
subsequent rotation leaves the already-cleared crop unchanged (the clearing
is not cumulative), and every change of rotation clears the crop. -/
theorem rotation_roundtrip (p : Photo) (h : p.rotation < 360) :
    (rotateRightPhoto (rotateRightPhoto (rotateRightPhoto (rotateRightPhoto p)))).rotation
        = p.rotation
    ∧ (rotateLeftPhoto (rotateLeftPhoto (rotateLeftPhoto (rotateLeftPhoto p)))).rotation
        = p.rotation
    ∧ (rotateRightPhoto p).crop = none
    ∧ (rotateLeftPhoto p).crop = none
    ∧ (rotateRightPhoto (rotateRightPhoto p)).crop = (rotateRightPhoto p).crop
    ∧ (rotateLeftPhoto (rotateLeftPhoto p)).crop = (rotateLeftPhoto p).crop := by
  refine ⟨?_, ?_, rfl, rfl, rfl, rfl⟩
  · simp only [rotateRightPhoto]
    omega
  · simp only [rotateLeftPhoto]
    omega

/-- C8 witness: a photo at rotation 90 with an active crop returns to 90
after four right rotations, and its crop is discarded on the first one. -/
theorem rotation_roundtrip_witness :
    (90 : Nat) < 360
    ∧ (rotateRightPhoto (rotateRightPhoto (rotateRightPhoto (rotateRightPhoto
        ⟨1, 90, some ⟨0, 0, 10, 10⟩⟩)))).rotation = 90
    ∧ (rotateRightPhoto (⟨1, 90, some ⟨0, 0, 10, 10⟩⟩ : Photo)).crop = none := by
  have h := rotation_roundtrip ⟨1, 90, some ⟨0, 0, 10, 10⟩⟩ (by decide)
  exact ⟨by decide, h.1, h.2.2.1⟩

/-! ## Batch runner: runBatchOperation (App component)

The source copies the collection (`const newPhotos = [...photos]`), returns
early when it is empty, processes the photos sequentially in chunks of 5
(awaiting the async operation per photo and reporting progress per chunk),
and calls `pushHistory(newPhotos)` exactly once, after the whole loop.  A
throwing operation propagates out of the `for` loops, so pushHistory is never
reached and the collection value held by the history is untouched.

The operation is modelled as `P → Except E P`; the observable we verify is
the list of history pushes the run performs. -/

/-- Process one chunk of photos sequentially; the first error aborts. -/
def batchChunk {P E : Type} (op : P → Except E P) : List P → Except E (List P)
  | [] => .ok []
  | p :: rest =>
    match op p with
    | .error e => .error e
    | .ok q =>
      match batchChunk op rest with
      | .error e => .error e
      | .ok qs => .ok (q :: qs)

/-- The chunked loop: `for (let i = 0; i < total; i += chunkSize)` with
chunkSize 5, each chunk processed photo by photo. -/
def runChunks {P E : Type} (op : P → Except E P) (l : List P) : Except E (List P) :=
  match l with
  | [] => .ok []
  | p :: rest =>
    match batchChunk op ((p :: rest).take 5) with
    | .error e => .error e
    | .ok c =>
      match runChunks op ((p :: rest).drop 5) with
      | .error e => .error e
      | .ok cs => .ok (c ++ cs)
termination_by l.length
decreasing_by simp only [List.length_drop, List.length_cons]; omega

/-- The history pushes performed by runBatchOperation: none when the
collection is empty (early return) or when the operation throws on some
photo; exactly one — of the completed batch — otherwise. -/
def runBatchPushes {P E : Type} (op : P → Except E P) (photos : List P) :
    List (List P) :=
  if photos.isEmpty then []
  else
    match runChunks op photos with
    | .error _ => []
    | .ok l => [l]

lemma batchChunk_ok_iff {P E : Type} (op : P → Except E P) (l : List P) :
    (∃ r, batchChunk op l = .ok r) ↔ ∀ p ∈ l, ∃ q, op p = .ok q := by
  induction l with
  | nil => simp [batchChunk]
  | cons p rest ih =>
    constructor
    · rintro ⟨r, hr⟩
      intro q hq
      rcases List.mem_cons.mp hq with h | h
      · subst h
        cases hop : op q with
        | error e => simp [batchChunk, hop] at hr
        | ok v => exact ⟨v, rfl⟩
      · cases hop : op p with
        | error e => simp [batchChunk, hop] at hr
        | ok v =>
          cases hrest : batchChunk op rest with
          | error e => simp [batchChunk, hop, hrest] at hr
          | ok vs => exact (ih.mp ⟨vs, hrest⟩) q h
    · intro hall
      obtain ⟨v, hv⟩ := hall p (List.mem_cons_self p rest)
      obtain ⟨vs, hvs⟩ := ih.mpr fun q hq => hall q (List.mem_cons_of_mem p hq)
      exact ⟨v :: vs, by simp [batchChunk, hv, hvs]⟩

lemma runChunks_ok_iff {P E : Type} (op : P → Except E P) (l : List P) :
    (∃ r, runChunks op l = .ok r) ↔ ∀ p ∈ l, ∃ q, op p = .ok q := by
  generalize hl : l.length = n
  induction n using Nat.strong_induction_on generalizing l with
  | _ n ih =>
    cases l with
    | nil => simp [runChunks]
    | cons p rest =>
      have hdrop : (rest.drop 4).length < n := by
        simp only [List.length_drop, List.length_cons] at hl ⊢
        omega
      have ihd := ih _ hdrop (rest.drop 4) rfl
      have hsplit : ∀ q, q ∈ p :: rest ↔ q ∈ p :: rest.take 4 ∨ q ∈ rest.drop 4 := by
        intro q
        simp only [List.mem_cons, or_assoc]
        rw [← List.mem_append, List.take_append_drop]
      simp only [runChunks]
      constructor
      · rintro ⟨r, hr⟩
        intro q hq
        cases hc : batchChunk op (p :: rest.take 4) with
        | error e => simp [hc] at hr
        | ok c =>
          cases hd : runChunks op (rest.drop 4) with
          | error e => simp [hc, hd] at hr
          | ok cs =>
            rcases (hsplit q).mp hq with h | h
            · exact ((batchChunk_ok_iff op _).mp ⟨c, hc⟩) q h
            · exact (ihd.mp ⟨cs, hd⟩) q h
      · intro hall
        obtain ⟨c, hc⟩ := (batchChunk_ok_iff op (p :: rest.take 4)).mpr
          fun q hq => hall q ((hsplit q).mpr (Or.inl hq))
        obtain ⟨cs, hd⟩ := ihd.mpr fun q hq => hall q ((hsplit q).mpr (Or.inr hq))
        exact ⟨c ++ cs, by simp [hc, hd]⟩

/-- C5 counterexample: on the empty collection runBatchOperation returns
early and performs no history push at all, so it does not perform exactly
one push for every collection. -/
theorem runBatch_empty_no_push :
    (runBatchPushes (fun n : Nat => (Except.ok n : Except Unit Nat)) []).length ≠ 1 := by
  decide

/-- C5 (amended): for every non-empty collection, runBatchOperation performs
exactly one history push — of the completed batch result, after the entire
batch — when the operation succeeds on every photo, and performs no push at
all (leaving the collection unchanged) when the operation throws on any
photo. -/
theorem runBatch_atomic {P E : Type} (op : P → Except E P) (photos : List P)
    (hne : photos ≠ []) :
    (∀ l, runChunks op photos = .ok l → runBatchPushes op photos = [l])
    ∧ ((∀ p ∈ photos, ∃ q, op p = .ok q) → (runBatchPushes op photos).length = 1)
    ∧ ((∃ p ∈ photos, ∀ q, op p ≠ .ok q) → runBatchPushes op photos = []) := by
  have hne' : photos.isEmpty = false := by
    cases photos with
    | nil => exact absurd rfl hne
    | cons a l => rfl
  refine ⟨?_, ?_, ?_⟩
  · intro l hl
    simp [runBatchPushes, hne', hl]
  · intro hall
    obtain ⟨l, hl⟩ := (runChunks_ok_iff op photos).mpr hall
    simp [runBatchPushes, hne', hl]
  · rintro ⟨p, hp, hfail⟩
    cases hrun : runChunks op photos with
    | error e => simp [runBatchPushes, hne', hrun]
    | ok l =>
      obtain ⟨q, hq⟩ := ((runChunks_ok_iff op photos).mp ⟨l, hrun⟩) p hp
      exact absurd hq (hfail q)

/-- C5 witness: a three-photo batch with an always-succeeding operation makes
exactly one push, and with an operation failing on photo 2 it makes none. -/
theorem runBatch_atomic_witness :
    ([1, 2, 3] : List Nat) ≠ []
    ∧ (runBatchPushes (fun n : Nat => (Except.ok (n + 1) : Except Unit Nat))
        [1, 2, 3]).length = 1
    ∧ runBatchPushes
        (fun n : Nat => if n = 2 then .error () else (Except.ok n : Except Unit Nat))
        [1, 2, 3] = [] := by
  refine ⟨by decide, ?_, ?_⟩
  · exact (runBatch_atomic (fun n : Nat => (Except.ok (n + 1) : Except Unit Nat))
      [1, 2, 3] (by decide)).2.1 (by intro p _; exact ⟨p + 1, rfl⟩)
  · refine (runBatch_atomic
      (fun n : Nat => if n = 2 then .error () else (Except.ok n : Except Unit Nat))
      [1, 2, 3] (by decide)).2.2 ⟨2, by decide, ?_⟩
    intro q
    simp

/-! ## GPU path and filter cache: applyWebGLFilters / updateFilterCache

applyWebGLFilters (src/utils/processor.ts, WebGL half) has two distinct
failure behaviours:
* `canvas.getContext` returning null makes it `throw new Error(..)`;
* a shader-compile or program-link failure makes createShader/createProgram
  return null (after `console.error(..InfoLog..)`), upon which
  applyWebGLFilters silently `return`s — it does not throw.

updateFilterCache (CanvasView) wraps only the call in try/catch: the catch
branch logs, redraws the source image on the cache canvas, and runs
applyImageFilters (the CPU path); after the if/else it unconditionally sets
`isFilteredCacheValid.current = true`.  We model the observable outcome of
one updateFilterCache call (assuming the image and the 2d context are
available, which the claim presupposes). -/

/-- Outcome of one applyWebGLFilters call. -/
inductive GpuRun where
  | ok
  | throwNoContext
  | earlyReturn
deriving DecidableEq, Repr

/-- Control-flow outcome of applyWebGLFilters given whether WebGL context
creation and shader compilation/linking succeed. -/
def applyWebGLFiltersRun (contextOk compileOk : Bool) : GpuRun :=
  if contextOk = false then .throwNoContext
  else if compileOk = false then .earlyReturn
  else .ok

/-- What ends up on the cache canvas after updateFilterCache. -/
inductive CacheContent where
  | gpuFiltered
  | cpuFiltered
  | unfiltered
deriving DecidableEq, Repr

/-- Observable result of one updateFilterCache call: cache-canvas content,
the validity flag, whether a failure was logged to the console, and whether
any user-facing error was raised. -/
structure CacheOutcome where
  content : CacheContent
  valid : Bool
  loggedFailure : Bool
  userFacingError : Bool
deriving DecidableEq, Repr

/-- One updateFilterCache call.  The try/catch around applyWebGLFilters only
catches the thrown no-context error; the silent early return on compile
failure leaves the cache canvas without any drawn image, yet the validity
flag is still set at the end of the function. -/
def updateFilterCache (useGPU contextOk compileOk : Bool) : CacheOutcome :=
  if useGPU then
    match applyWebGLFiltersRun contextOk compileOk with
    | .throwNoContext => ⟨.cpuFiltered, true, true, false⟩
    | .earlyReturn => ⟨.unfiltered, true, true, false⟩
    | .ok => ⟨.gpuFiltered, true, false, false⟩
  else ⟨.cpuFiltered, true, false, false⟩

/-- C2 counterexample: when a shader fails to compile (WebGL context fine),
applyWebGLFilters returns without throwing, so updateFilterCache does not
fall back to the CPU path — the cache canvas is left without the
CPU-filtered image (and is still marked valid). -/
theorem gpu_compile_failure_no_fallback :
    (updateFilterCache true true false).content ≠ CacheContent.cpuFiltered
    ∧ (updateFilterCache true true false).valid = true := by
  decide

/-- C2 (amended): on WebGL context-creation failure the thrown error is
caught, logged, and the CPU path transparently fills the cache canvas; on
shader-compile failure the failure is logged but applyWebGLFilters returns
silently, so no CPU fallback occurs and the cache canvas is left unfiltered
while still marked valid; in no case is a user-facing error raised. -/
theorem gpu_fallback_behaviour :
    (∀ compileOk : Bool,
      updateFilterCache true false compileOk = ⟨.cpuFiltered, true, true, false⟩)
    ∧ updateFilterCache true true false = ⟨.unfiltered, true, true, false⟩
    ∧ updateFilterCache true true true = ⟨.gpuFiltered, true, false, false⟩
    ∧ ∀ useGPU contextOk compileOk : Bool,
        (updateFilterCache useGPU contextOk compileOk).userFacingError = false := by
  decide

/-! ## Crop resize logic: handlePointerMove, crop branch (CanvasView)

For a resize drag (`dragMode.length <= 2`, i.e. a handle among
n/s/e/w/ne/nw/se/sw) the source, starting from the drag-start rectangle and
the pointer delta divided by the display scale, applies in this order:
1. raw edge deltas per handle letter;
2. when an aspect ratio is locked, re-derivation of the dependent dimension
   (width drags the height or vice versa), repositioning the n/w edge;
3. clamping to the image bounds;
4. minimum-size enforcement (`minSize = 50 / layout.scale`), last.
-/

/-- Which edge letters the drag handle contains (dragMode string). -/
structure HandleFlags where
  n : Bool
  s : Bool
  e : Bool
  w : Bool
deriving DecidableEq, Repr

/-- Step 1: raw deltas — `w -= dx; x += dx` for a west handle, `w += dx` for
east, `h -= dy; y += dy` for north, `h += dy` for south. -/
def resizeCropRaw (hf : HandleFlags) (dx dy : ℚ) (st : CropRect) : CropRect :=
  let x := if hf.w then st.x + dx else st.x
  let w := if hf.w then st.width - dx else st.width
  let w := if hf.e then w + dx else w
  let y := if hf.n then st.y + dy else st.y
  let h := if hf.n then st.height - dy else st.height
  let h := if hf.s then h + dy else h
  ⟨x, y, w, h⟩

/-- Step 2: ratio lock — on an e/w drag the height follows the width (and a
north handle re-anchors y to the fixed south edge); on a pure n/s drag the
width follows the height (and a west handle re-anchors x). -/
def applyRatioLock (hf : HandleFlags) (ratio : Option ℚ) (start : CropRect)
    (r : CropRect) : CropRect :=
  match ratio with
  | none => r
  | some rv =>
    if hf.e || hf.w then
      let h := r.width / rv
      let y := if hf.n then start.y + start.height - h else r.y
      ⟨r.x, y, r.width, h⟩
    else if hf.n || hf.s then
      let w := r.height * rv
      let x := if hf.w then start.x + start.width - w else r.x
      ⟨x, r.y, w, r.height⟩
    else r

/-- Step 3: bounds clamp — `if (x < 0) { w += x; x = 0 }`,
`if (x + w > imgW) { w = imgW - x }`, and the same for y/h. -/
def clampCropBounds (imgW imgH : ℚ) (r : CropRect) : CropRect :=
  let x := if r.x < 0 then 0 else r.x
  let w := if r.x < 0 then r.width + r.x else r.width
  let w := if x + w > imgW then imgW - x else w
  let y := if r.y < 0 then 0 else r.y
  let h := if r.y < 0 then r.height + r.y else r.height
  let h := if y + h > imgH then imgH - y else h
  ⟨x, y, w, h⟩

/-- Step 4: minimum size, enforced last —
`if (w < minSize) w = minSize; if (h < minSize) h = minSize`. -/
def enforceMinSize (minSize : ℚ) (r : CropRect) : CropRect :=
  ⟨r.x, r.y,
    if r.width < minSize then minSize else r.width,
    if r.height < minSize then minSize else r.height⟩

/-- The full crop-resize step of handlePointerMove, with
`minSize = 50 / scale`. -/
def resizeCropStep (hf : HandleFlags) (dx dy : ℚ) (start : CropRect)
    (imgW imgH scale : ℚ) (ratio : Option ℚ) : CropRect :=
  enforceMinSize (50 / scale)
    (clampCropBounds imgW imgH (applyRatioLock hf ratio start (resizeCropRaw hf dx dy start)))

/-- Containment of a crop rect in the image bounds. -/
def cropInBounds (imgW imgH : ℚ) (r : CropRect) : Prop :=
  0 ≤ r.x ∧ 0 ≤ r.y ∧ r.x + r.width ≤ imgW ∧ r.y + r.height ≤ imgH

lemma clampCropBounds_inBounds (imgW imgH : ℚ) (r : CropRect) :
    cropInBounds imgW imgH (clampCropBounds imgW imgH r) := by
  unfold clampCropBounds cropInBounds
  by_cases h1 : r.x < 0 <;> by_cases h2 : r.y < 0 <;>
    simp only [h1, h2, ite_true, ite_false, if_true, if_false] <;>
    split_ifs <;>
    exact ⟨by linarith, by linarith, by linarith, by linarith⟩

/-- C6 counterexample: dragging the west handle of a 100x100 image by +30
from the rect (60, 0, 40, 100) at scale 1 (minSize 50) yields the rect
(90, 0, 50, 100), which exceeds the right image bound — the minimum-size
enforcement, applied after the bounds clamp, pushes the crop outside the
image. -/
theorem resizeCrop_exceeds_bounds :
    ¬ cropInBounds 100 100
      (resizeCropStep ⟨false, false, false, true⟩ 30 0 ⟨60, 0, 40, 100⟩ 100 100 1 none) := by
  norm_num [resizeCropStep, resizeCropRaw, applyRatioLock, clampCropBounds,
    enforceMinSize, cropInBounds]

/-- C6 (amended): the bounds clamp runs after the ratio-lock re-derivation
(not before it, as the claim states), and its output always lies inside the
image; the final minimum-size enforcement can push the rect back out of
bounds, so the full resize step stays within the image exactly when the
clamped dimensions already meet the minimum size. -/
theorem resizeCrop_bounds (hf : HandleFlags) (dx dy : ℚ) (start : CropRect)
    (imgW imgH scale : ℚ) (ratio : Option ℚ) :
    cropInBounds imgW imgH
      (clampCropBounds imgW imgH (applyRatioLock hf ratio start (resizeCropRaw hf dx dy start)))
    ∧ (50 / scale ≤
        (clampCropBounds imgW imgH
          (applyRatioLock hf ratio start (resizeCropRaw hf dx dy start))).width →
      50 / scale ≤
        (clampCropBounds imgW imgH
          (applyRatioLock hf ratio start (resizeCropRaw hf dx dy start))).height →
      cropInBounds imgW imgH (resizeCropStep hf dx dy start imgW imgH scale ratio)) := by
  set r := applyRatioLock hf ratio start (resizeCropRaw hf dx dy start) with hr
  have hclamp : cropInBounds imgW imgH (clampCropBounds imgW imgH r) :=
    clampCropBounds_inBounds imgW imgH r
  refine ⟨hclamp, ?_⟩
  intro hw hh
  have hmin : enforceMinSize (50 / scale) (clampCropBounds imgW imgH r)
      = clampCropBounds imgW imgH r := by
    unfold enforceMinSize
    rw [if_neg (by linarith), if_neg (by linarith)]
  unfold resizeCropStep
  rw [← hr, hmin]
  exact hclamp

/-- C6 witness: an east-handle drag of -10 on a full-image crop of a 100x100
image at scale 1 meets the minimum size, and the resulting rect stays inside
the image. -/
theorem resizeCrop_bounds_witness :
    (50 : ℚ) / 1 ≤
      (clampCropBounds 100 100
        (applyRatioLock ⟨false, false, true, false⟩ none ⟨0, 0, 100, 100⟩
          (resizeCropRaw ⟨false, false, true, false⟩ (-10) 0 ⟨0, 0, 100, 100⟩))).width
    ∧ cropInBounds 100 100
        (resizeCropStep ⟨false, false, true, false⟩ (-10) 0 ⟨0, 0, 100, 100⟩ 100 100 1 none) := by
  have heval : 50 / 1 ≤
      (clampCropBounds 100 100
        (applyRatioLock ⟨false, false, true, false⟩ none ⟨0, 0, 100, 100⟩
          (resizeCropRaw ⟨false, false, true, false⟩ (-10) 0 ⟨0, 0, 100, 100⟩))).width ∧
      50 / 1 ≤
      (clampCropBounds 100 100
        (applyRatioLock ⟨false, false, true, false⟩ none ⟨0, 0, 100, 100⟩
          (resizeCropRaw ⟨false, false, true, false⟩ (-10) 0 ⟨0, 0, 100, 100⟩))).height := by
    norm_num [resizeCropRaw, applyRatioLock, clampCropBounds]
  exact ⟨heval.1,
    (resizeCrop_bounds ⟨false, false, true, false⟩ (-10) 0 ⟨0, 0, 100, 100⟩
      100 100 1 none).2 heval.1 heval.2⟩

/-! ## Logo drag snapping: handlePointerMove, move_logo branch (CanvasView)

The new normalized position is `dragStart.logoX + dx / layout.width`; the
snap threshold is `12 / layout.width` (12 screen pixels in normalized
units).  The center snap is checked first, then (only if not already
snapped) the two edge snaps; the snap guide is published from the snapped
value; finally the position is clamped to
`[normHalfW, 1 - normHalfW]`.  handlePointerUp resets the guides. -/

/-- Result of the x-axis part of one move_logo pointer-move step: the final
normalized x, the snapped flag, and the published guide position. -/
structure SnapResult where
  x : ℚ
  snappedX : Bool
  guideX : Option ℚ
deriving DecidableEq, Repr

/-- One move_logo pointer-move step on the x axis.  The source checks the
center snap first and guards each edge snap with `!snappedX`, so the three
snap branches are mutually exclusive and each tests the unmodified newX;
the guide is published from the snapped value and the clamp to
`[normHalfW, 1 - normHalfW]` is applied at the end. -/
def moveLogoDragX (startX dxPx layoutW normHalfW : ℚ) : SnapResult :=
  let newX := startX + dxPx / layoutW
  let snapThreshX := 12 / layoutW
  if |newX - 1/2| < snapThreshX then
    ⟨max normHalfW (min (1/2) (1 - normHalfW)), true, some (1/2)⟩
  else if |newX - normHalfW| < snapThreshX then
    ⟨max normHalfW (min normHalfW (1 - normHalfW)), true, some normHalfW⟩
  else if |newX + normHalfW - 1| < snapThreshX then
    ⟨max normHalfW (min (1 - normHalfW) (1 - normHalfW)), true, some (1 - normHalfW)⟩
  else
    ⟨max normHalfW (min newX (1 - normHalfW)), false, none⟩

/-- handlePointerUp resets the snap guides
(`setSnapGuides({ x: null, y: null })`). -/
def pointerUpSnapGuides : Option ℚ × Option ℚ := (none, none)

/-- C9 counterexample: a logo wider than the viewport (normalized half-width
7/10) dragged exactly onto the horizontal center is inside the snap
threshold, yet the final clamp to [normHalfW, 1 - normHalfW] overrides the
snap and the logo does not land at x = 1/2. -/
theorem snap_center_overridden_by_clamp :
    |(1 : ℚ)/2 + 0 / 100 - 1/2| < 12 / 100
    ∧ (moveLogoDragX (1/2) 0 100 (7/10)).x ≠ 1/2 := by
  norm_num [moveLogoDragX]

/-- C9 (amended): provided the logo fits in the viewport (normalized
half-width at most 1/2), a pointer position whose resulting normalized x is
within 12/viewportWidth of the center lands exactly at x = 1/2 with the
snapped axis reported at the center; when the half-width is strictly below
1/2 and the position is outside the threshold the x coordinate never ends up
at the center; snap guides are reset on pointer-up.  A logo wider than the
viewport is clamped to [normHalfW, 1 - normHalfW], which overrides the
snap. -/
theorem snap_center_behaviour (startX dxPx layoutW normHalfW : ℚ)
    (hW : 0 < layoutW) :
    (normHalfW ≤ 1/2 →
      |startX + dxPx / layoutW - 1/2| < 12 / layoutW →
      (moveLogoDragX startX dxPx layoutW normHalfW).x = 1/2
        ∧ (moveLogoDragX startX dxPx layoutW normHalfW).snappedX = true
        ∧ (moveLogoDragX startX dxPx layoutW normHalfW).guideX = some (1/2))
    ∧ (normHalfW < 1/2 →
      ¬ |startX + dxPx / layoutW - 1/2| < 12 / layoutW →
      (moveLogoDragX startX dxPx layoutW normHalfW).x ≠ 1/2)
    ∧ pointerUpSnapGuides = (none, none) := by
  have clampNeHalf : ∀ x : ℚ, normHalfW < 1/2 → x ≠ 1/2 →
      max normHalfW (min x (1 - normHalfW)) ≠ 1/2 := by
    intro x hh hx habs
    rcases max_cases normHalfW (min x (1 - normHalfW)) with ⟨hm, _⟩ | ⟨hm, _⟩ <;>
      rw [hm] at habs
    · linarith
    · rcases min_cases x (1 - normHalfW) with ⟨hm2, _⟩ | ⟨hm2, _⟩ <;> rw [hm2] at habs
      · exact hx habs
      · linarith
  refine ⟨?_, ?_, rfl⟩
  · intro hhalf hin
    simp only [moveLogoDragX, if_pos hin]
    exact ⟨by rw [min_eq_left (by linarith), max_eq_right hhalf], by trivial, by trivial⟩
  · intro hhalf hout
    have hth : 0 < 12 / layoutW := by positivity
    have hne : startX + dxPx / layoutW ≠ 1/2 := by
      intro heq
      exact hout (by rw [heq]; simpa using hth)
    simp only [moveLogoDragX, if_neg hout]
    by_cases h2 : |startX + dxPx / layoutW - normHalfW| < 12 / layoutW
    · rw [if_pos h2]
      exact clampNeHalf normHalfW hhalf (ne_of_lt hhalf)
    · rw [if_neg h2]
      by_cases h3 : |startX + dxPx / layoutW + normHalfW - 1| < 12 / layoutW
      · rw [if_pos h3]
        exact clampNeHalf (1 - normHalfW) hhalf (ne_of_gt (by linarith))
      · rw [if_neg h3]
        exact clampNeHalf _ hhalf hne

/-- C9 witness: a fitting logo (half-width 1/10) dragged onto the center of
a 100-pixel-wide viewport snaps exactly to x = 1/2 with the axis reported. -/
theorem snap_center_behaviour_witness :
    (0 : ℚ) < 100
    ∧ (1 : ℚ)/10 ≤ 1/2
    ∧ |(1 : ℚ)/2 + 0 / 100 - 1/2| < 12 / 100
    ∧ (moveLogoDragX (1/2) 0 100 (1/10)).x = 1/2
    ∧ (moveLogoDragX (1/2) 0 100 (1/10)).snappedX = true := by
  have h := (snap_center_behaviour (1/2) 0 100 (1/10) (by norm_num)).1
    (by norm_num) (by norm_num)
  exact ⟨by norm_num, by norm_num, by norm_num, h.1, h.2.1⟩

/-! ## Adjustment engine, CPU path: applyImageFilters (processor.ts)

The per-pixel loop is modelled over the reals (the source computes in
JavaScript floats with `Math.pow` and `Math.tanh`; every step relevant to
the claims below is exact in both).  Writing a channel back into the
Uint8ClampedArray clamps — already done by the explicit final clamp — and
rounds to the nearest integer (ties round to even in the browser; no tie
occurs at any input considered here). -/

noncomputable section

/-- The six adjustment fields (Adjustments interface of src/types.ts). -/
structure AdjustmentsR where
  exposure : ℝ
  contrast : ℝ
  temperature : ℝ
  tint : ℝ
  vibrance : ℝ
  saturation : ℝ

/-- DEFAULT_ADJUSTMENTS: every field 0. -/
def defaultAdjustments : AdjustmentsR := ⟨0, 0, 0, 0, 0, 0⟩

/-- clamp helper of processor.ts: `Math.min(Math.max(val, min), max)`. -/
def clampR (val lo hi : ℝ) : ℝ := min (max val lo) hi

/-- One RGB pixel (the loop leaves alpha untouched). -/
@[ext]
structure PixelR where
  r : ℝ
  g : ℝ
  b : ℝ

/-- `rollOffThreshold = 210`. -/
def rollOffThreshold : ℝ := 210

/-- `rollOffRange = 255 - 210 = 45`. -/
def rollOffRange : ℝ := 255 - rollOffThreshold

/-- The soft-knee highlight rolloff, applied to every channel above the
threshold (unconditionally — also when the exposure is 0). -/
def rollOff (v : ℝ) : ℝ :=
  if v > rollOffThreshold then
    rollOffThreshold + rollOffRange * Real.tanh ((v - rollOffThreshold) / rollOffRange)
  else v

/-- The applyImageFilters per-pixel computation: exposure with rolloff,
contrast, temperature/tint, saturation, vibrance, and the final clamp,
exactly in the source's order.  `gray` is computed once (after
temperature/tint) and reused by the vibrance stage even though saturation
has updated the channels. -/
def cpuPixel (adj : AdjustmentsR) (p : PixelR) : PixelR :=
  let exposureMultiplier := (2 : ℝ) ^ (adj.exposure / 80)
  let contrastFactor := (259 * (adj.contrast + 255)) / (255 * (259 - adj.contrast))
  let tempR := if adj.temperature > 0 then 1 + (adj.temperature / 100) * 0.4 else 1
  let tempB := if adj.temperature < 0 then 1 + (|adj.temperature| / 100) * 0.4 else 1
  let tintG := if adj.tint < 0 then 1 + (|adj.tint| / 100) * 0.4 else 1
  let tintRB := if adj.tint > 0 then 1 + (adj.tint / 100) * 0.2 else 1
  let sat := adj.saturation / 100
  let vib := adj.vibrance / 100
  let r1 := rollOff (p.r * exposureMultiplier)
  let g1 := rollOff (p.g * exposureMultiplier)
  let b1 := rollOff (p.b * exposureMultiplier)
  let r2 := contrastFactor * (r1 - 128) + 128
  let g2 := contrastFactor * (g1 - 128) + 128
  let b2 := contrastFactor * (b1 - 128) + 128
  let r3 := r2 * (tempR * tintRB)
  let g3 := g2 * tintG
  let b3 := b2 * (tempB * tintRB)
  let gray := 0.2126 * r3 + 0.7152 * g3 + 0.0722 * b3
  let r4 := if sat ≠ 0 then gray + (r3 - gray) * (1 + sat) else r3
  let g4 := if sat ≠ 0 then gray + (g3 - gray) * (1 + sat) else g3
  let b4 := if sat ≠ 0 then gray + (b3 - gray) * (1 + sat) else b3
  let amt := |max r4 (max g4 b4) - (r4 + g4 + b4) / 3| * 2 / 255 * vib * (-1) + vib
  let r5 := if vib ≠ 0 then r4 + (r4 - gray) * amt else r4
  let g5 := if vib ≠ 0 then g4 + (g4 - gray) * amt else g4
  let b5 := if vib ≠ 0 then b4 + (b4 - gray) * amt else b4
  ⟨clampR r5 0 255, clampR g5 0 255, clampR b5 0 255⟩

/-- Writing a channel into the Uint8ClampedArray: round to the nearest
integer (the value is already clamped by cpuPixel). -/
def storeChannel (v : ℝ) : ℤ := round v

/-- GLSL `mix(x, y, a) = x*(1-a) + y*a`. -/
def glslMix (x y a : ℝ) : ℝ := x * (1 - a) + y * a

/-- The FRAGMENT_SHADER main() of processor.ts, stage by stage, in
normalized 0..1 color space: exposure (no rolloff on the GPU path),
simplified contrast `1 + c/100` around 0.5, the same temperature/tint
factors, saturation as mix with luminance (weights 0.2125/0.7154/0.0721),
vibrance without the /255 division, final mix with factor 1. -/
def gpuShaderPixel (adj : AdjustmentsR) (c : PixelR) : PixelR :=
  let exposureMultiplier := (2 : ℝ) ^ (adj.exposure / 80)
  let r1 := c.r * exposureMultiplier
  let g1 := c.g * exposureMultiplier
  let b1 := c.b * exposureMultiplier
  let contrastFactor := 1 + adj.contrast / 100
  let r2 := (r1 - 0.5) * contrastFactor + 0.5
  let g2 := (g1 - 0.5) * contrastFactor + 0.5
  let b2 := (b1 - 0.5) * contrastFactor + 0.5
  let tempR := if adj.temperature > 0 then 1 + (adj.temperature / 100) * 0.4 else 1
  let tempB := if adj.temperature < 0 then 1 + (|adj.temperature| / 100) * 0.4 else 1
  let tintG := if adj.tint < 0 then 1 + (|adj.tint| / 100) * 0.4 else 1
  let tintRB := if adj.tint > 0 then 1 + (adj.tint / 100) * 0.2 else 1
  let r3 := r2 * (tempR * tintRB)
  let g3 := g2 * tintG
  let b3 := b2 * (tempB * tintRB)
  let luminance := 0.2125 * r3 + 0.7154 * g3 + 0.0721 * b3
  let sat := adj.saturation / 100
  let r4 := glslMix luminance r3 (1 + sat)
  let g4 := glslMix luminance g3 (1 + sat)
  let b4 := glslMix luminance b3 (1 + sat)
  let vib := adj.vibrance / 100
  let amt := |max r4 (max g4 b4) - (r4 + g4 + b4) / 3| * 2 * vib * (-1) + vib
  let r5 := glslMix r4 (r4 + (r4 - luminance) * amt) 1
  let g5 := glslMix g4 (g4 + (g4 - luminance) * amt) 1
  let b5 := glslMix b4 (b4 + (b4 - luminance) * amt) 1
  ⟨r5, g5, b5⟩

lemma rollOff_of_le {v : ℝ} (h : v ≤ 210) : rollOff v = v := by
  unfold rollOff
  rw [if_neg]
  rw [rollOffThreshold]
  exact not_lt.mpr h

/-- C1 (amended): the default adjustment set is an exact no-op on the GPU
shader path for every pixel, and on the CPU path exactly for pixels whose
channels all lie at or below the rolloff threshold 210; channels above the
threshold are compressed by the unconditional highlight rolloff even at
default adjustments. -/
theorem identity_default_adjustments (p : PixelR)
    (h0r : 0 ≤ p.r) (h1r : p.r ≤ 210) (h0g : 0 ≤ p.g) (h1g : p.g ≤ 210)
    (h0b : 0 ≤ p.b) (h1b : p.b ≤ 210) :
    cpuPixel defaultAdjustments p = p
    ∧ ∀ q : PixelR, gpuShaderPixel defaultAdjustments q = q := by
  constructor
  · simp only [cpuPixel, defaultAdjustments]
    norm_num
    rw [rollOff_of_le h1r, rollOff_of_le h1g, rollOff_of_le h1b]
    ext
    · simp only [clampR]
      rw [max_eq_left h0r, min_eq_left (by linarith)]
    · simp only [clampR]
      rw [max_eq_left h0g, min_eq_left (by linarith)]
    · simp only [clampR]
      rw [max_eq_left h0b, min_eq_left (by linarith)]
  · intro q
    simp only [gpuShaderPixel, defaultAdjustments, glslMix]
    norm_num

/-- C1 witness: a pixel with channels (100, 150, 210) is left bit-identical
by the CPU path at default adjustments, and the GPU path is the identity. -/
theorem identity_default_adjustments_witness :
    cpuPixel defaultAdjustments ⟨100, 150, 210⟩ = ⟨100, 150, 210⟩
    ∧ gpuShaderPixel defaultAdjustments ⟨3, 4, 5⟩ = ⟨3, 4, 5⟩ := by
  have h := identity_default_adjustments ⟨100, 150, 210⟩
    (by norm_num) (by norm_num) (by norm_num) (by norm_num) (by norm_num) (by norm_num)
  exact ⟨h.1, h.2 ⟨3, 4, 5⟩⟩

lemma tanh_one_bounds : 67/90 < Real.tanh 1 ∧ Real.tanh 1 < 69/90 := by
  have h1 : (2.7182818283 : ℝ) < Real.exp 1 := Real.exp_one_gt_d9
  have h2 : Real.exp 1 < 2.7182818286 := Real.exp_one_lt_d9
  have hpos : (0 : ℝ) < Real.exp 1 := Real.exp_pos 1
  have hbpos : (0 : ℝ) < (Real.exp 1)⁻¹ := by positivity
  have hmul : Real.exp 1 * (Real.exp 1)⁻¹ = 1 := mul_inv_cancel₀ (ne_of_gt hpos)
  have hcosh : Real.cosh 1 = (Real.exp 1 + (Real.exp 1)⁻¹) / 2 := by
    rw [Real.cosh_eq, Real.exp_neg]
  have hsinh : Real.sinh 1 = (Real.exp 1 - (Real.exp 1)⁻¹) / 2 := by
    rw [Real.sinh_eq, Real.exp_neg]
  have hcoshpos : (0 : ℝ) < Real.cosh 1 := Real.cosh_pos 1
  constructor
  · rw [Real.tanh_eq_sinh_div_cosh, lt_div_iff₀ hcoshpos, hcosh, hsinh]
    nlinarith [hmul, h1, h2, hpos, hbpos, sq_nonneg (Real.exp 1 - 2.7182818283)]
  · rw [Real.tanh_eq_sinh_div_cosh, div_lt_iff₀ hcoshpos, hcosh, hsinh]
    nlinarith [hmul, h1, h2, hpos, hbpos, sq_nonneg (2.7182818286 - Real.exp 1)]

lemma cpuPixel_default_255 :
    (cpuPixel defaultAdjustments ⟨255, 255, 255⟩).r = 210 + 45 * Real.tanh 1 := by
  have htanh := tanh_one_bounds
  have hro : rollOff 255 = 210 + 45 * Real.tanh 1 := by
    unfold rollOff rollOffThreshold rollOffRange
    rw [if_pos (by norm_num)]
    norm_num [rollOffThreshold]
  simp only [cpuPixel, defaultAdjustments]
  norm_num [hro]
  rw [clampR, max_eq_left (by linarith [htanh.1]), min_eq_left (by linarith [htanh.2])]

/-- C1 counterexample: a pure-white pixel (255, 255, 255) is not preserved
by the CPU path at default adjustments — the unconditional highlight rolloff
stores channel value 244 instead of 255 (an 11/255 shift on every maximal
channel, uniformly darkening all bright highlights). -/
theorem identity_fails_above_threshold :
    storeChannel ((cpuPixel defaultAdjustments ⟨255, 255, 255⟩).r) = 244
    ∧ (244 : ℤ) ≠ 255 := by
  have htanh := tanh_one_bounds
  refine ⟨?_, by decide⟩
  rw [storeChannel, cpuPixel_default_255, round_eq, Int.floor_eq_iff]
  constructor
  · push_cast
    linarith [htanh.1]
  · push_cast
    linarith [htanh.2]

/-- Componentwise clamp of the six adjustment fields to [-100, 100], stated
from the claim's words for comparison (the source engine contains no such
clamp). -/
def clampAdjustments (a : AdjustmentsR) : AdjustmentsR :=
  ⟨clampR a.exposure (-100) 100, clampR a.contrast (-100) 100,
   clampR a.temperature (-100) 100, clampR a.tint (-100) 100,
   clampR a.vibrance (-100) 100, clampR a.saturation (-100) 100⟩

/-- All six adjustment fields within the valid range [-100, 100]. -/
def adjInRange (a : AdjustmentsR) : Prop :=
  (-100 ≤ a.exposure ∧ a.exposure ≤ 100)
  ∧ (-100 ≤ a.contrast ∧ a.contrast ≤ 100)
  ∧ (-100 ≤ a.temperature ∧ a.temperature ≤ 100)
  ∧ (-100 ≤ a.tint ∧ a.tint ≤ 100)
  ∧ (-100 ≤ a.vibrance ∧ a.vibrance ≤ 100)
  ∧ (-100 ≤ a.saturation ∧ a.saturation ≤ 100)

lemma clampAdjustments_eq_self {a : AdjustmentsR} (h : adjInRange a) :
    clampAdjustments a = a := by
  obtain ⟨⟨h1, h2⟩, ⟨h3, h4⟩, ⟨h5, h6⟩, ⟨h7, h8⟩, ⟨h9, h10⟩, ⟨h11, h12⟩⟩ := h
  cases a with
  | mk e c t ti v s =>
    simp only [clampAdjustments, clampR, AdjustmentsR.mk.injEq]
    refine ⟨?_, ?_, ?_, ?_, ?_, ?_⟩ <;>
      rw [max_eq_left (by assumption), min_eq_left (by assumption)]

lemma clampR_bounds (v : ℝ) : 0 ≤ clampR v 0 255 ∧ clampR v 0 255 ≤ 255 :=
  ⟨le_min (le_max_right v 0) (by norm_num), min_le_right _ _⟩

/-- C3 counterexample: applyImageFilters does not clamp adjustment values
before use — contrast 150 on the mid-tone pixel (140, 140, 140) produces a
different red channel than the componentwise clamp (contrast 100) does. -/
theorem adjustment_clamp_counterexample :
    (cpuPixel ⟨0, 150, 0, 0, 0, 0⟩ ⟨140, 140, 140⟩).r ≠
      (cpuPixel (clampAdjustments ⟨0, 150, 0, 0, 0, 0⟩) ⟨140, 140, 140⟩).r := by
  have hcl : clampAdjustments ⟨0, 150, 0, 0, 0, 0⟩ = ⟨0, 100, 0, 0, 0, 0⟩ := by
    simp only [clampAdjustments, clampR]
    norm_num
  rw [hcl]
  simp only [cpuPixel]
  norm_num [rollOff, rollOffThreshold, rollOffRange, clampR, min_def, max_def]

/-- C3 (amended): applyImageFilters uses adjustment values exactly as given,
with no clamping to the valid range — for in-range adjustments the
componentwise clamp is the identity and the outputs trivially agree — and it
never rejects any input: the computation is total and the final per-channel
clamp keeps every output channel in [0, 255]. -/
theorem cpu_filters_clamp_free (adj : AdjustmentsR) (p : PixelR)
    (h : adjInRange adj) :
    cpuPixel (clampAdjustments adj) p = cpuPixel adj p
    ∧ (0 ≤ (cpuPixel adj p).r ∧ (cpuPixel adj p).r ≤ 255
      ∧ 0 ≤ (cpuPixel adj p).g ∧ (cpuPixel adj p).g ≤ 255
      ∧ 0 ≤ (cpuPixel adj p).b ∧ (cpuPixel adj p).b ≤ 255) := by
  refine ⟨by rw [clampAdjustments_eq_self h], ?_, ?_, ?_, ?_, ?_, ?_⟩ <;>
    simp only [cpuPixel] <;>
    first
      | exact (clampR_bounds _).1
      | exact (clampR_bounds _).2

/-- C3 witness: at the (in-range) default adjustments the clamped and
unclamped engines agree on a concrete pixel, and the output channel is
nonnegative. -/
theorem cpu_filters_clamp_free_witness :
    adjInRange defaultAdjustments
    ∧ cpuPixel (clampAdjustments defaultAdjustments) ⟨300, 5, 7⟩ =
        cpuPixel defaultAdjustments ⟨300, 5, 7⟩
    ∧ 0 ≤ (cpuPixel defaultAdjustments ⟨300, 5, 7⟩).r := by
  have hr : adjInRange defaultAdjustments := by
    norm_num [adjInRange, defaultAdjustments]
  have h := cpu_filters_clamp_free defaultAdjustments ⟨300, 5, 7⟩ hr
  exact ⟨hr, h.1, h.2.1⟩

/-! ## Aspect-ratio retargeting: applyAspectRatio (CanvasView)

The source computes the centered, area-preserving rect of the requested
ratio (`targetW = sqrt(area*ratio)`), shrinks it to fit (width check first,
then the height check on the updated pair), re-centers, and clamps each axis
into the image.  The computation is split here into its two halves exactly
as they appear in sequence. -/

/-- Target width after the two shrink-to-fit checks. -/
def aspectTargetW (ratio imgW imgH area : ℝ) : ℝ :=
  let w0 := Real.sqrt (area * ratio)
  let h1 := if w0 > imgW then imgW / ratio else w0 / ratio
  if h1 > imgH then imgH * ratio else (if w0 > imgW then imgW else w0)

/-- Target height after the two shrink-to-fit checks. -/
def aspectTargetH (ratio imgW imgH area : ℝ) : ℝ :=
  let w0 := Real.sqrt (area * ratio)
  let h1 := if w0 > imgW then imgW / ratio else w0 / ratio
  if h1 > imgH then imgH else h1

/-- One axis of the re-center-and-clamp:
`if (n < 0) n = 0; if (n + size > img) n = img - size`. -/
def clampAxis (n size img : ℝ) : ℝ :=
  let n1 := if n < 0 then 0 else n
  if n1 + size > img then img - size else n1

/-- Crop rectangle over the reals, for the aspect-ratio helper. -/
@[ext]
structure CropRectR where
  x : ℝ
  y : ℝ
  width : ℝ
  height : ℝ

/-- applyAspectRatio of CanvasView (the new rect it passes to
setLocalCrop/onUpdateCrop). -/
def applyAspectRatio (ratio imgW imgH : ℝ) (c : CropRectR) : CropRectR :=
  let cx := c.x + c.width / 2
  let cy := c.y + c.height / 2
  let area := c.width * c.height
  let w2 := aspectTargetW ratio imgW imgH area
  let h2 := aspectTargetH ratio imgW imgH area
  ⟨clampAxis (cx - w2 / 2) w2 imgW, clampAxis (cy - h2 / 2) h2 imgH, w2, h2⟩

/-- Normal form produced by applyAspectRatio: exact ratio, fitting and
in-bounds. -/
def ratioNormal (ratio imgW imgH : ℝ) (r : CropRectR) : Prop :=
  0 ≤ r.width ∧ r.height = r.width / ratio ∧ r.width ≤ imgW ∧ r.height ≤ imgH
  ∧ 0 ≤ r.x ∧ r.x + r.width ≤ imgW ∧ 0 ≤ r.y ∧ r.y + r.height ≤ imgH

lemma clampAxis_bounds {size img : ℝ} (n : ℝ) (hs : size ≤ img) :
    0 ≤ clampAxis n size img ∧ clampAxis n size img + size ≤ img := by
  simp only [clampAxis]
  constructor <;> split_ifs <;> linarith

lemma clampAxis_id {n size img : ℝ} (h0 : ¬ n < 0) (h1 : ¬ n + size > img) :
    clampAxis n size img = n := by
  simp only [clampAxis]
  rw [if_neg h0, if_neg h1]

lemma aspectTarget_spec (ratio imgW imgH area : ℝ) (hr : 0 < ratio)
    (hW : 0 < imgW) (hH : 0 < imgH) :
    0 ≤ aspectTargetW ratio imgW imgH area
    ∧ aspectTargetH ratio imgW imgH area = aspectTargetW ratio imgW imgH area / ratio
    ∧ aspectTargetW ratio imgW imgH area ≤ imgW
    ∧ aspectTargetH ratio imgW imgH area ≤ imgH := by
  have hs : 0 ≤ Real.sqrt (area * ratio) := Real.sqrt_nonneg _
  have hrne : ratio ≠ 0 := ne_of_gt hr
  unfold aspectTargetW aspectTargetH
  simp only
  by_cases h1 : Real.sqrt (area * ratio) > imgW
  · simp only [if_pos h1]
    by_cases h2 : imgW / ratio > imgH
    · simp only [if_pos h2]
      have hlt : imgH * ratio < imgW := by
        rw [gt_iff_lt, lt_div_iff₀ hr] at h2
        exact h2
      exact ⟨by positivity, by field_simp, le_of_lt hlt, le_refl _⟩
    · simp only [if_neg h2]
      exact ⟨le_of_lt hW, by trivial, le_refl _, not_lt.mp h2⟩
  · simp only [if_neg h1]
    by_cases h2 : Real.sqrt (area * ratio) / ratio > imgH
    · simp only [if_pos h2]
      have hlt : imgH * ratio < Real.sqrt (area * ratio) := by
        rw [gt_iff_lt, lt_div_iff₀ hr] at h2
        exact h2
      exact ⟨by positivity, by field_simp, le_trans (le_of_lt hlt) (not_lt.mp h1),
        le_refl _⟩
    · simp only [if_neg h2]
      exact ⟨hs, by trivial, not_lt.mp h1, not_lt.mp h2⟩

lemma applyAspectRatio_normal (ratio imgW imgH : ℝ) (c : CropRectR)
    (hr : 0 < ratio) (hW : 0 < imgW) (hH : 0 < imgH) :
    ratioNormal ratio imgW imgH (applyAspectRatio ratio imgW imgH c) := by
  obtain ⟨hw2, hhw, hwW, hhH⟩ :=
    aspectTarget_spec ratio imgW imgH (c.width * c.height) hr hW hH
  unfold applyAspectRatio ratioNormal
  simp only
  exact ⟨hw2, hhw, hwW, hhH,
    (clampAxis_bounds _ hwW).1, (clampAxis_bounds _ hwW).2,
    (clampAxis_bounds _ hhH).1, (clampAxis_bounds _ hhH).2⟩

lemma applyAspectRatio_fixed (ratio imgW imgH : ℝ) (r : CropRectR)
    (hr : 0 < ratio) (hn : ratioNormal ratio imgW imgH r) :
    applyAspectRatio ratio imgW imgH r = r := by
  obtain ⟨hw, hh, hwW, hhH, hx0, hxW, hy0, hyH⟩ := hn
  have hrne : ratio ≠ 0 := ne_of_gt hr
  have harea : r.width * r.height * ratio = r.width ^ 2 := by
    rw [hh]
    field_simp
    ring
  have hw0 : Real.sqrt (r.width * r.height * ratio) = r.width := by
    rw [harea, Real.sqrt_sq hw]
  have hW1 : ¬ r.width > imgW := not_lt.mpr hwW
  have hH1 : ¬ r.width / ratio > imgH := by
    rw [← hh]
    exact not_lt.mpr hhH
  have hWeq : aspectTargetW ratio imgW imgH (r.width * r.height) = r.width := by
    unfold aspectTargetW
    simp only [hw0, if_neg hW1, if_neg hH1]
  have hHeq : aspectTargetH ratio imgW imgH (r.width * r.height) = r.height := by
    unfold aspectTargetH
    simp only [hw0, if_neg hW1, if_neg hH1]
    exact hh.symm
  unfold applyAspectRatio
  simp only [hWeq, hHeq]
  have hcx : r.x + r.width / 2 - r.width / 2 = r.x := by ring
  have hcy : r.y + r.height / 2 - r.height / 2 = r.y := by ring
  rw [hcx, hcy, clampAxis_id (not_lt.mpr hx0) (not_lt.mpr hxW),
    clampAxis_id (not_lt.mpr hy0) (not_lt.mpr hyH)]

/-- C7: applyAspectRatio is a fixed point on its own output — for every crop
fully inside the image and every positive ratio, applying the same ratio
twice yields exactly the rect obtained by applying it once (the rect does
not keep shrinking). -/
theorem aspectRatio_fixed_point (ratio imgW imgH : ℝ) (c : CropRectR)
    (hr : 0 < ratio) (hw : 0 < c.width) (hh : 0 < c.height)
    (hx : 0 ≤ c.x) (hy : 0 ≤ c.y)
    (hxw : c.x + c.width ≤ imgW) (hyh : c.y + c.height ≤ imgH) :
    applyAspectRatio ratio imgW imgH (applyAspectRatio ratio imgW imgH c)
      = applyAspectRatio ratio imgW imgH c := by
  have hW : 0 < imgW := by linarith
  have hH : 0 < imgH := by linarith
  exact applyAspectRatio_fixed ratio imgW imgH _ hr
    (applyAspectRatio_normal ratio imgW imgH c hr hW hH)

/-- C7 witness: the square ratio applied twice to the full square crop of a
100x100 image equals a single application. -/
theorem aspectRatio_fixed_point_witness :
    (0 : ℝ) < 1
    ∧ applyAspectRatio 1 100 100 (applyAspectRatio 1 100 100 ⟨0, 0, 100, 100⟩)
        = applyAspectRatio 1 100 100 ⟨0, 0, 100, 100⟩ := by
  refine ⟨by norm_num, ?_⟩
  exact aspectRatio_fixed_point 1 100 100 ⟨0, 0, 100, 100⟩ (by norm_num) (by norm_num)
    (by norm_num) (by norm_num) (by norm_num) (by norm_num) (by norm_num)

end

end HanFrame
